import Mathlib

/-!
Shallow embedding of `src/core/src/people/repo.rs` (the Face/People `Repository`
of rs-lib-photos), together with theorems settling the frozen claims about it.

Modelling conventions:
* A filesystem path is its list of components (`Path := List String`); Rust's
  `Path::strip_prefix` is component-wise prefix removal and `PathBuf::join`
  with a relative path is append.
* `Path::to_string_lossy` on a relative path renders the components joined by
  a slash; parsing a stored relative text back into components splits on the
  slash (`pathToText` / `textToPath`).
* The SQLite tables are lists of row structures inside a `DB` value; column
  nullability follows SQLite's default (a column is nullable unless the DDL,
  which is outside the provided sources, declares otherwise), so stored text
  columns are `Option String`.
* `CURRENT_TIMESTAMP` is an explicit `now : Int` argument.
* A rusqlite transaction commits on success and rolls back when dropped after
  a failed statement, so each write operation returns the untouched pre-call
  `DB` alongside the error when any statement inside its transaction fails.
* Row ids assigned by SQLite are modelled by a `next_face_id` counter.
-/

namespace Fotema

/-- A filesystem path, as its list of components. -/
abbrev Path := List String

/-- Models `Path::to_string_lossy` on a relative path: components joined by a slash. -/
def pathToText (p : Path) : String :=
  (List.intercalate ['/'] (p.map String.toList)).asString

/-- Models parsing stored relative-path text back into components, as
`PathBuf::join` does with a relative string argument: split on the slash. -/
def textToPath (s : String) : Path :=
  (s.toList.splitOn '/').map List.asString

/-- Models `Path::strip_prefix`: remove a component-wise prefix, failing when
`base` is not a prefix of `p` (Rust's `StripPrefixError`). -/
def stripBase (base p : Path) : Option Path :=
  if base.isPrefixOf p then some (p.drop base.length) else none

/-- Models `PathBuf::join` with stored relative text: append the parsed components. -/
def joinText (base : Path) (s : String) : Path :=
  base ++ textToPath s

/-- Modelled from the spec: value of one base64-alphabet character. The
`crate::path_encoding` module is not among the provided sources; the spec
describes it as a binary-safe base64 encoding/decoding of filesystem paths
for storage as text, whose decoding can fail on malformed stored text. -/
def b64Val (c : Char) : Option Nat :=
  if 'A' ≤ c ∧ c ≤ 'Z' then some (c.toNat - 65)
  else if 'a' ≤ c ∧ c ≤ 'z' then some (c.toNat - 71)
  else if '0' ≤ c ∧ c ≤ '9' then some (c.toNat + 4)
  else if c = '+' then some 62
  else if c = '/' then some 63
  else none

/-- Modelled from the spec: decode base64 text four characters at a time into
bytes, failing on a character outside the alphabet, on misplaced padding, or
on a length that is not a multiple of four. -/
def b64DecodeGroups : List Char → Option (List Nat)
  | [] => some []
  | c1 :: c2 :: c3 :: c4 :: rest => do
      let v1 ← b64Val c1
      let v2 ← b64Val c2
      if c3 = '=' ∧ c4 = '=' ∧ rest = [] then
        some [v1 * 4 + v2 / 16]
      else if c4 = '=' ∧ rest = [] then
        let v3 ← b64Val c3
        some [v1 * 4 + v2 / 16, (v2 % 16) * 16 + v3 / 4]
      else
        let v3 ← b64Val c3
        let v4 ← b64Val c4
        let tail ← b64DecodeGroups rest
        some ([v1 * 4 + v2 / 16, (v2 % 16) * 16 + v3 / 4, (v3 % 4) * 64 + v4] ++ tail)
  | _ => none

/-- Modelled from the spec: `path_encoding::from_base64`, decoding stored text
back to a filesystem path; returns none on malformed text. -/
def from_base64 (s : String) : Option Path :=
  (b64DecodeGroups s.toList).map (fun bytes => textToPath (bytes.map Char.ofNat).asString)

/-- Row of the `pictures` table (owned by a collaborator, read here). Timestamp
columns and `is_broken` are nullable. -/
structure PictureRow where
  picture_id : Int
  picture_path_b64 : String
  exif_created_ts : Option Int
  exif_modified_ts : Option Int
  fs_created_ts : Option Int
  fs_modified_ts : Option Int
  is_broken : Option Bool
deriving DecidableEq

/-- Row of the `pictures_face_scans` table. -/
structure FaceScanRow where
  picture_id : Int
  is_broken : Bool
  face_count : Nat
  scan_ts : Int
deriving DecidableEq

/-- Row of the `pictures_faces` table. Landmark coordinate columns are nullable;
text columns are nullable by SQLite default; `person_id` is the link column
written by an out-of-scope collaborator. -/
structure FaceRow where
  face_id : Int
  picture_id : Int
  thumbnail_path : Option String
  bounds_path : Option String
  model_name : String
  bounds_x : Int
  bounds_y : Int
  bounds_width : Int
  bounds_height : Int
  right_eye_x : Option Int
  right_eye_y : Option Int
  left_eye_x : Option Int
  left_eye_y : Option Int
  nose_x : Option Int
  nose_y : Option Int
  right_mouth_corner_x : Option Int
  right_mouth_corner_y : Option Int
  left_mouth_corner_x : Option Int
  left_mouth_corner_y : Option Int
  confidence : Int
  is_face : Bool
  person_id : Option Int
deriving DecidableEq

/-- Row of the `people` table (owned by a collaborator, joined here); `name`
and `thumbnail_path` are nullable by SQLite default. -/
structure PersonRow where
  person_id : Int
  name : Option String
  thumbnail_path : Option String
deriving DecidableEq

/-- The SQLite database state reachable from the repository, with the id
counter SQLite uses for fresh `pictures_faces` rows. -/
structure DB where
  pictures : List PictureRow
  pictures_face_scans : List FaceScanRow
  pictures_faces : List FaceRow
  people : List PersonRow
  next_face_id : Int
deriving DecidableEq

/-- Domain entity `model::Face` as returned by `find_faces`. -/
structure Face where
  face_id : Int
  thumbnail_path : Path
deriving DecidableEq

/-- Domain entity `model::Person` as returned by `find_faces`. -/
structure Person where
  person_id : Int
  name : String
  thumbnail_path : Path
deriving DecidableEq

/-- The `Repository` struct: the two filesystem roots (the connection is the
explicit `DB` argument of each operation). -/
structure Repository where
  library_base_path : Path
  cache_dir_base_path : Path
deriving DecidableEq

/-- Models `Repository::open`: fails when the library base path is not a
directory; the filesystem is abstracted as the `is_dir` predicate. -/
def Repository.openRepo (is_dir : Path → Bool) (library_base_path : Path)
    (cache_dir_base_path : Path) : Except String Repository :=
  if is_dir library_base_path then
    .ok { library_base_path := library_base_path, cache_dir_base_path := cache_dir_base_path }
  else
    .error "not a directory"

/-- WHERE clause of `find_need_face_scan`: no `pictures_face_scans` row joins
to the picture and `COALESCE(pictures.is_broken, FALSE) IS FALSE`. -/
def needsScan (db : DB) (p : PictureRow) : Bool :=
  db.pictures_face_scans.all (fun s => s.picture_id ≠ p.picture_id)
    && !(p.is_broken.getD false)

/-- The query's `ordering_ts` column:
`COALESCE(exif_created_ts, exif_modified_ts, fs_created_ts, fs_modified_ts, CURRENT_TIMESTAMP)`. -/
def orderingTs (now : Int) (p : PictureRow) : Int :=
  (((p.exif_created_ts.orElse fun _ => p.exif_modified_ts).orElse
      fun _ => p.fs_created_ts).orElse fun _ => p.fs_modified_ts).getD now

/-- Models `Repository::to_picture_id_path_tuple`: decode the stored base64
path text (errors become `rusqlite::Error::InvalidQuery`) and join it to the
library root. -/
def to_picture_id_path_tuple (repo : Repository) (p : PictureRow) :
    Except String (Int × Path) :=
  match from_base64 p.picture_path_b64 with
  | none => .error "InvalidQuery"
  | some rel => .ok (p.picture_id, repo.library_base_path ++ rel)

/-- Models `Repository::find_need_face_scan`: filter, order descending by
`ordering_ts`, map rows, and silently drop rows whose mapping failed
(`.flatten()` on an iterator of results). -/
def find_need_face_scan (repo : Repository) (now : Int) (db : DB) :
    Except String (List (Int × Path)) :=
  .ok ((((db.pictures.filter (needsScan db)).mergeSort
      (fun a b => decide (orderingTs now b ≤ orderingTs now a))).map
        (to_picture_id_path_tuple repo)).filterMap Except.toOption)

/-- LEFT OUTER JOIN of a face row against `people USING (person_id)`: the
matching person row, when the face's link column is set and a person row
carries that id. -/
def lookup_person (db : DB) (link : Option Int) : Option PersonRow :=
  link.bind (fun p => db.people.find? (fun pr => pr.person_id == p))

/-- Models `Repository::to_face_and_person`: the face thumbnail column is read
strictly (a NULL is a row-mapping error), the three person columns leniently
(`.ok()`), and a `Person` is built only when all three are present. -/
def to_face_and_person (repo : Repository) (db : DB) (f : FaceRow) :
    Except String (Face × Option Person) :=
  match f.thumbnail_path with
  | none => .error "InvalidColumnType"
  | some t =>
    let face : Face :=
      { face_id := f.face_id, thumbnail_path := joinText repo.cache_dir_base_path t }
    let joined := lookup_person db f.person_id
    let person_id : Option Int := joined.map (fun pr => pr.person_id)
    let person_name : Option String := joined.bind (fun pr => pr.name)
    let person_thumbnail_path : Option Path :=
      (joined.bind (fun pr => pr.thumbnail_path)).map
        (fun pt => joinText repo.cache_dir_base_path pt)
    let person : Option Person :=
      match person_id, person_name, person_thumbnail_path with
      | some i, some n, some pt =>
        some { person_id := i, name := n, thumbnail_path := pt }
      | _, _, _ => none
    .ok (face, person)

/-- Models `Repository::find_faces`: faces of the picture with
`is_face = TRUE`, mapped to entities, rows whose mapping failed silently
dropped (`.flatten()`). -/
def find_faces (repo : Repository) (db : DB) (pid : Int) :
    Except String (List (Face × Option Person)) :=
  .ok (((db.pictures_faces.filter
      (fun f => f.picture_id == pid && f.is_face)).map
        (to_face_and_person repo db)).filterMap Except.toOption)

/-- The `INSERT INTO pictures_face_scans ... ON CONFLICT (picture_id) DO
UPDATE` statement shared by `add_face_scans` and `mark_face_scan_broken`. -/
def upsert_face_scan (pid : Int) (isBroken : Bool) (faceCount : Nat) (now : Int)
    (scans : List FaceScanRow) : List FaceScanRow :=
  if scans.any (fun s => s.picture_id == pid) then
    scans.map (fun s =>
      if s.picture_id == pid then
        { s with is_broken := isBroken, face_count := faceCount, scan_ts := now }
      else s)
  else
    scans ++ [{ picture_id := pid, is_broken := isBroken, face_count := faceCount,
                scan_ts := now }]

/-- Models `Repository::mark_face_scan_broken`: a one-statement transaction
upserting the scan row with `is_broken = TRUE`, `face_count = 0`. -/
def mark_face_scan_broken (now : Int) (pid : Int) (db : DB) :
    Except String Unit × DB :=
  (.ok (), { db with
    pictures_face_scans := upsert_face_scan pid true 0 now db.pictures_face_scans })

/-- A face observation produced by the detector
(`face_extractor::Face`). Modelled from the spec: the `face_extractor` module
is not among the provided sources; per the spec an observation carries a
bounding box, five optional landmark pairs (each a whole `(x, y)` point or
absent), a confidence score, a model name, and two generated asset paths. -/
structure FaceObservation where
  thumbnail_path : Path
  bounds_path : Path
  model_name : String
  bounds_x : Int
  bounds_y : Int
  bounds_width : Int
  bounds_height : Int
  right_eye : Option (Int × Int)
  left_eye : Option (Int × Int)
  nose : Option (Int × Int)
  right_mouth_corner : Option (Int × Int)
  left_mouth_corner : Option (Int × Int)
  confidence : Int
deriving DecidableEq

/-- The `pictures_faces` row the face-insert statement writes for one
observation, with the already-rebased asset paths and `is_face = true`. -/
def mkFaceRow (pid fid : Int) (t b : Path) (f : FaceObservation) : FaceRow :=
  { face_id := fid,
    picture_id := pid,
    thumbnail_path := some (pathToText t),
    bounds_path := some (pathToText b),
    model_name := f.model_name,
    bounds_x := f.bounds_x,
    bounds_y := f.bounds_y,
    bounds_width := f.bounds_width,
    bounds_height := f.bounds_height,
    right_eye_x := f.right_eye.map Prod.fst,
    right_eye_y := f.right_eye.map Prod.snd,
    left_eye_x := f.left_eye.map Prod.fst,
    left_eye_y := f.left_eye.map Prod.snd,
    nose_x := f.nose.map Prod.fst,
    nose_y := f.nose.map Prod.snd,
    right_mouth_corner_x := f.right_mouth_corner.map Prod.fst,
    right_mouth_corner_y := f.right_mouth_corner.map Prod.snd,
    left_mouth_corner_x := f.left_mouth_corner.map Prod.fst,
    left_mouth_corner_y := f.left_mouth_corner.map Prod.snd,
    confidence := f.confidence,
    is_face := true,
    person_id := none }

/-- One iteration of the face-insert loop of `add_face_scans`: rebase both
asset paths against the cache root (failure aborts the statement) and insert
the row with `is_face = true`. -/
def insert_face (repo : Repository) (pid : Int) (f : FaceObservation) (db : DB) :
    Except String DB :=
  match stripBase repo.cache_dir_base_path f.thumbnail_path,
      stripBase repo.cache_dir_base_path f.bounds_path with
  | some t, some b =>
    .ok { db with
      pictures_faces := db.pictures_faces ++ [mkFaceRow pid db.next_face_id t b f],
      next_face_id := db.next_face_id + 1 }
  | _, _ => .error "StripPrefixError"

/-- The face-insert loop of `add_face_scans`, aborting at the first failure. -/
def insert_faces (repo : Repository) (pid : Int) (faces : List FaceObservation)
    (db : DB) : Except String DB :=
  match faces with
  | [] => .ok db
  | f :: rest =>
    match insert_face repo pid f db with
    | .error e => .error e
    | .ok db1 => insert_faces repo pid rest db1

/-- Models `Repository::add_face_scans`: inside one transaction, upsert the
scan row (`is_broken = false`, `face_count = faces.len()`), then insert every
face row; commit on success, roll back to the pre-call state on any failure. -/
def add_face_scans (repo : Repository) (now : Int) (pid : Int)
    (faces : List FaceObservation) (db : DB) : Except String Unit × DB :=
  match insert_faces repo pid faces
      { db with pictures_face_scans :=
          upsert_face_scan pid false faces.length now db.pictures_face_scans } with
  | .ok db2 => (.ok (), db2)
  | .error e => (.error e, db)

/-- Models `Repository::mark_not_a_face`: a one-statement transaction setting
`is_face = FALSE` on rows whose `face_id` matches. -/
def mark_not_a_face (fid : Int) (db : DB) : Except String Unit × DB :=
  (.ok (), { db with
    pictures_faces := db.pictures_faces.map (fun f =>
      if f.face_id == fid then { f with is_face := false } else f) })

/-- Invariant claimed by the spec: at most one `pictures_face_scans` row per
picture (the table's upsert key is `picture_id`). -/
def scanUnique (db : DB) : Prop :=
  db.pictures_face_scans.Pairwise (fun a b => a.picture_id ≠ b.picture_id)

/-- Both generated asset paths of an observation rebase successfully against
the cache root. -/
def stripsOk (repo : Repository) (f : FaceObservation) : Bool :=
  (stripBase repo.cache_dir_base_path f.thumbnail_path).isSome
    && (stripBase repo.cache_dir_base_path f.bounds_path).isSome

/-- The behaviour of `find_faces` as the spec words it (for the refinement
claim): one tuple per face row of the picture with `is_face = true`, the face
thumbnail joined to the cache root, and a `Person` present exactly when the
joined person row exists with a non-null name and a non-null thumbnail path. -/
def find_faces_spec (repo : Repository) (db : DB) (pid : Int) :
    List (Face × Option Person) :=
  (db.pictures_faces.filter (fun f => f.picture_id == pid && f.is_face)).map
    (fun f =>
      ({ face_id := f.face_id,
         thumbnail_path := joinText repo.cache_dir_base_path (f.thumbnail_path.getD "") },
       match lookup_person db f.person_id with
       | none => none
       | some pr =>
         match pr.name, pr.thumbnail_path with
         | some n, some pt =>
           some { person_id := pr.person_id, name := n,
                  thumbnail_path := joinText repo.cache_dir_base_path pt }
         | _, _ => none))

/-- Concrete repository used by the witnesses. -/
def exRepo : Repository :=
  { library_base_path := ["lib"], cache_dir_base_path := ["cache"] }

/-- Concrete observation with asset paths under the cache root and a mix of
present and absent landmarks. -/
def exObs : FaceObservation :=
  { thumbnail_path := ["cache", "faces", "t1.png"],
    bounds_path := ["cache", "faces", "b1.png"],
    model_name := "m", bounds_x := 1, bounds_y := 2, bounds_width := 3,
    bounds_height := 4,
    right_eye := some (10, 11), left_eye := none, nose := some (12, 13),
    right_mouth_corner := none, left_mouth_corner := some (14, 15),
    confidence := 90 }

/-- Concrete observation whose thumbnail path is not under the cache root. -/
def badObs : FaceObservation :=
  { exObs with thumbnail_path := ["elsewhere", "t2.png"] }

/-- Empty database. -/
def exDB : DB :=
  { pictures := [], pictures_face_scans := [], pictures_faces := [],
    people := [], next_face_id := 1 }

/-- Concrete stored face row (as `add_face_scans` would store `exObs`). -/
def exFaceRow : FaceRow :=
  { face_id := 1, picture_id := 1,
    thumbnail_path := some "faces/t1.png", bounds_path := some "faces/b1.png",
    model_name := "m", bounds_x := 1, bounds_y := 2, bounds_width := 3,
    bounds_height := 4,
    right_eye_x := some 10, right_eye_y := some 11,
    left_eye_x := none, left_eye_y := none,
    nose_x := some 12, nose_y := some 13,
    right_mouth_corner_x := none, right_mouth_corner_y := none,
    left_mouth_corner_x := some 14, left_mouth_corner_y := some 15,
    confidence := 90, is_face := true, person_id := none }

/-- Database holding one scanned picture with one stored face. -/
def exDB2 : DB :=
  { pictures := [],
    pictures_face_scans := [{ picture_id := 1, is_broken := false,
                              face_count := 1, scan_ts := 5 }],
    pictures_faces := [exFaceRow], people := [], next_face_id := 2 }

/-- Concrete picture rows with decodable stored paths and distinct timestamps. -/
def exPic1 : PictureRow :=
  { picture_id := 1, picture_path_b64 := "QUJD", exif_created_ts := some 10,
    exif_modified_ts := none, fs_created_ts := none, fs_modified_ts := none,
    is_broken := none }

/-- Second concrete picture row, newer than `exPic1`. -/
def exPic2 : PictureRow :=
  { picture_id := 2, picture_path_b64 := "QUJD", exif_created_ts := some 20,
    exif_modified_ts := none, fs_created_ts := none, fs_modified_ts := none,
    is_broken := none }

/-- Database with two unscanned pictures. -/
def exDB3 : DB :=
  { pictures := [exPic1, exPic2], pictures_face_scans := [],
    pictures_faces := [], people := [], next_face_id := 1 }

/-- Stored face row whose thumbnail column is NULL: its row mapping fails. -/
def badFaceRow : FaceRow :=
  { exFaceRow with thumbnail_path := none }

/-- Database holding only `badFaceRow`. -/
def badDB : DB :=
  { pictures := [], pictures_face_scans := [], pictures_faces := [badFaceRow],
    people := [], next_face_id := 2 }

/-- The stored face row a given observation gives rise to: picture link,
`is_face = true`, no person link, and each landmark pair stored as the two
projections of the same optional point. -/
def rowMatchesObs (pid : Int) (r : FaceRow) (f : FaceObservation) : Prop :=
  r.picture_id = pid ∧ r.is_face = true ∧ r.person_id = none ∧
  r.model_name = f.model_name ∧
  r.right_eye_x = f.right_eye.map Prod.fst ∧
  r.right_eye_y = f.right_eye.map Prod.snd ∧
  r.left_eye_x = f.left_eye.map Prod.fst ∧
  r.left_eye_y = f.left_eye.map Prod.snd ∧
  r.nose_x = f.nose.map Prod.fst ∧
  r.nose_y = f.nose.map Prod.snd ∧
  r.right_mouth_corner_x = f.right_mouth_corner.map Prod.fst ∧
  r.right_mouth_corner_y = f.right_mouth_corner.map Prod.snd ∧
  r.left_mouth_corner_x = f.left_mouth_corner.map Prod.fst ∧
  r.left_mouth_corner_y = f.left_mouth_corner.map Prod.snd

/-!  Theorems. -/

/-- Rendering a relative path to text and parsing it back is the identity for
a nonempty path whose components contain no slash. -/
theorem textToPath_pathToText (p : Path) (h1 : p ≠ [])
    (h2 : ∀ c ∈ p, '/' ∉ c.toList) :
    textToPath (pathToText p) = p := by
  unfold textToPath pathToText
  rw [List.toList_asString]
  rw [List.splitOn_intercalate (p.map String.toList) '/' ?hx ?hls]
  · simp only [List.map_map]
    exact List.map_id'' (fun c => String.asString_toList c) p
  case hx =>
    intro l hl
    rcases List.mem_map.mp hl with ⟨c, hc, rfl⟩
    exact h2 c hc
  case hls => simpa using h1

/-- Rebasing `base ++ p` against `base` yields `p`. -/
theorem stripBase_append (base p : Path) : stripBase base (base ++ p) = some p := by
  unfold stripBase
  rw [if_pos]
  · rw [List.drop_left]
  · exact List.isPrefixOf_iff_prefix.mpr (List.prefix_append base p)

/-- One face insert succeeds exactly when both asset paths rebase against the
cache root. -/
theorem insert_face_ok_iff (repo : Repository) (pid : Int) (f : FaceObservation)
    (db : DB) :
    (∃ db1, insert_face repo pid f db = .ok db1) ↔ stripsOk repo f = true := by
  unfold insert_face stripsOk
  cases ht : stripBase repo.cache_dir_base_path f.thumbnail_path with
  | none => simp
  | some t =>
    cases hb : stripBase repo.cache_dir_base_path f.bounds_path with
    | none => simp
    | some b => simp

/-- The face-insert loop succeeds exactly when every observation's asset paths
rebase against the cache root. -/
theorem insert_faces_ok_iff (repo : Repository) (pid : Int)
    (faces : List FaceObservation) (db : DB) :
    (∃ db2, insert_faces repo pid faces db = .ok db2) ↔
      ∀ f ∈ faces, stripsOk repo f = true := by
  induction faces generalizing db with
  | nil => simp [insert_faces]
  | cons f rest ih =>
    rw [insert_faces]
    cases hf : insert_face repo pid f db with
    | error e =>
      simp only [List.mem_cons]
      constructor
      · rintro ⟨db2, h⟩
        exact absurd h (by simp)
      · rintro hall
        have : stripsOk repo f = true := hall f (Or.inl rfl)
        rcases (insert_face_ok_iff repo pid f db).mpr this with ⟨db1, h1⟩
        rw [hf] at h1
        exact absurd h1 (by simp)
    | ok db1 =>
      have hsf : stripsOk repo f = true :=
        (insert_face_ok_iff repo pid f db).mp ⟨db1, hf⟩
      rw [ih db1]
      constructor
      · intro hall g hg
        rcases List.mem_cons.mp hg with rfl | hg
        · exact hsf
        · exact hall g hg
      · intro hall g hg
        exact hall g (List.mem_cons_of_mem _ hg)

/-- A successful face insert only appends one row, matching the observation,
to `pictures_faces`. -/
theorem insert_face_shape (repo : Repository) (pid : Int) (f : FaceObservation)
    (db db1 : DB) (h : insert_face repo pid f db = .ok db1) :
    db1.pictures = db.pictures ∧
    db1.pictures_face_scans = db.pictures_face_scans ∧
    db1.people = db.people ∧
    ∃ row, db1.pictures_faces = db.pictures_faces ++ [row] ∧
      rowMatchesObs pid row f := by
  unfold insert_face at h
  cases ht : stripBase repo.cache_dir_base_path f.thumbnail_path with
  | none => rw [ht] at h; exact absurd h (by simp)
  | some t =>
    cases hb : stripBase repo.cache_dir_base_path f.bounds_path with
    | none => rw [ht, hb] at h; exact absurd h (by simp)
    | some b =>
      rw [ht, hb] at h
      cases h
      refine ⟨rfl, rfl, rfl, ?_⟩
      exact ⟨_, rfl, by simp [rowMatchesObs, mkFaceRow]⟩

/-- A successful run of the face-insert loop leaves the other tables alone and
only adds rows matching observations of the batch. -/
theorem insert_faces_shape (repo : Repository) (pid : Int)
    (faces : List FaceObservation) (db db2 : DB)
    (h : insert_faces repo pid faces db = .ok db2) :
    db2.pictures = db.pictures ∧
    db2.pictures_face_scans = db.pictures_face_scans ∧
    db2.people = db.people ∧
    ∀ r ∈ db2.pictures_faces,
      r ∈ db.pictures_faces ∨ ∃ f ∈ faces, rowMatchesObs pid r f := by
  induction faces generalizing db with
  | nil =>
    unfold insert_faces at h
    cases h
    exact ⟨rfl, rfl, rfl, fun r hr => Or.inl hr⟩
  | cons f rest ih =>
    rw [insert_faces] at h
    cases hf : insert_face repo pid f db with
    | error e => rw [hf] at h; exact absurd h (by simp)
    | ok db1 =>
      rw [hf] at h
      obtain ⟨hp, hs, hpe, hrows⟩ := ih db1 h
      obtain ⟨hp1, hs1, hpe1, row, hfaces1, hmatch⟩ :=
        insert_face_shape repo pid f db db1 hf
      refine ⟨hp.trans hp1, hs.trans hs1, hpe.trans hpe1, ?_⟩
      intro r hr
      rcases hrows r hr with hin | ⟨g, hg, hm⟩
      · rw [hfaces1] at hin
        rcases List.mem_append.mp hin with hin | hin
        · exact Or.inl hin
        · rcases List.mem_singleton.mp hin with rfl
          exact Or.inr ⟨f, List.mem_cons_self f rest, hmatch⟩
      · exact Or.inr ⟨g, List.mem_cons_of_mem _ hg, hm⟩

/-- The scan upsert preserves the one-row-per-picture invariant. -/
theorem upsert_preserves_unique (pid : Int) (b : Bool) (c : Nat) (t : Int)
    (scans : List FaceScanRow)
    (h : scans.Pairwise (fun a b => a.picture_id ≠ b.picture_id)) :
    (upsert_face_scan pid b c t scans).Pairwise
      (fun a b => a.picture_id ≠ b.picture_id) := by
  unfold upsert_face_scan
  by_cases hany : scans.any (fun s => s.picture_id == pid) = true
  · rw [if_pos hany]
    refine List.Pairwise.map _ ?_ h
    intro x y hxy
    by_cases hx : x.picture_id == pid <;> by_cases hy : y.picture_id == pid <;>
      simp [hx, hy, hxy]
  · rw [if_neg hany]
    rw [List.pairwise_append]
    refine ⟨h, List.pairwise_singleton _ _, ?_⟩
    intro x hx y hy
    rcases List.mem_singleton.mp hy with rfl
    intro hcontra
    exact hany (List.any_eq_true.mpr ⟨x, hx, by simp [hcontra]⟩)

/-- Under the invariant, a picture with some scan row has exactly one. -/
theorem filter_scan_found (pid : Int) (scans : List FaceScanRow)
    (h : scans.Pairwise (fun a b => a.picture_id ≠ b.picture_id))
    (hany : scans.any (fun s => s.picture_id == pid) = true) :
    ∃ s0, scans.filter (fun s => s.picture_id == pid) = [s0] ∧
      s0.picture_id = pid := by
  induction scans with
  | nil => simp at hany
  | cons s rest ih =>
    rcases List.pairwise_cons.mp h with ⟨hs, hrest⟩
    by_cases hmatch : s.picture_id == pid
    · refine ⟨s, ?_, by simpa using hmatch⟩
      rw [List.filter_cons_of_pos (by simpa using hmatch)]
      have : rest.filter (fun x => x.picture_id == pid) = [] := by
        rw [List.filter_eq_nil_iff]
        intro x hx
        have hne := hs x hx
        have hseq : s.picture_id = pid := by simpa using hmatch
        simp [hseq ▸ hne.symm]
      rw [this]
    · rw [List.filter_cons_of_neg (by simpa using hmatch)]
      have hany' : rest.any (fun x => x.picture_id == pid) = true := by
        rcases List.any_eq_true.mp hany with ⟨x, hx, hxe⟩
        rcases List.mem_cons.mp hx with rfl | hx
        · exact absurd hxe (by simpa using hmatch)
        · exact List.any_eq_true.mpr ⟨x, hx, hxe⟩
      exact ih hrest hany'

/-- Under the invariant, after an upsert the picture's scan rows are exactly
the freshly written row. -/
theorem upsert_filter (pid : Int) (b : Bool) (c : Nat) (t : Int)
    (scans : List FaceScanRow)
    (h : scans.Pairwise (fun a b => a.picture_id ≠ b.picture_id)) :
    (upsert_face_scan pid b c t scans).filter (fun s => s.picture_id == pid) =
      [{ picture_id := pid, is_broken := b, face_count := c, scan_ts := t }] := by
  unfold upsert_face_scan
  by_cases hany : scans.any (fun s => s.picture_id == pid) = true
  · rw [if_pos hany]
    rw [List.filter_map]
    have hcong : scans.filter
        ((fun s => s.picture_id == pid) ∘ (fun s =>
          if s.picture_id == pid then
            { s with is_broken := b, face_count := c, scan_ts := t }
          else s)) = scans.filter (fun s => s.picture_id == pid) := by
      apply List.filter_congr
      intro x _
      by_cases hx : x.picture_id = pid <;> simp [hx]
    rw [hcong]
    obtain ⟨s0, hs0, hs0pid⟩ := filter_scan_found pid scans h hany
    rw [hs0]
    simp only [List.map_cons, List.map_nil]
    congr 1
    rw [if_pos (by simpa using hs0pid)]
    cases s0
    simp_all
  · rw [if_neg hany]
    rw [List.filter_append]
    have h1 : scans.filter (fun s => s.picture_id == pid) = [] := by
      rw [List.filter_eq_nil_iff]
      intro x hx hcontra
      exact hany (List.any_eq_true.mpr ⟨x, hx, hcontra⟩)
    rw [h1]
    simp

/-- The first component of `add_face_scans` is success exactly when every
observation's paths rebase against the cache root. -/
theorem add_face_scans_fst (repo : Repository) (now pid : Int)
    (faces : List FaceObservation) (db : DB) :
    (add_face_scans repo now pid faces db).1 = .ok () ↔
      ∀ f ∈ faces, stripsOk repo f = true := by
  unfold add_face_scans
  cases hins : insert_faces repo pid faces
      { db with pictures_face_scans :=
          upsert_face_scan pid false faces.length now db.pictures_face_scans } with
  | ok db2 =>
    exact iff_of_true rfl ((insert_faces_ok_iff _ _ _ _).mp ⟨db2, hins⟩)
  | error e =>
    constructor
    · intro hcontra; exact absurd hcontra (by simp)
    · intro hall
      rcases (insert_faces_ok_iff _ _ _ _).mpr hall with ⟨db2, h2⟩
      rw [hins] at h2
      exact absurd h2 (by simp)

/-- The face-insert loop only ever fails with the path-rebase error. -/
theorem insert_faces_error (repo : Repository) (pid : Int)
    (faces : List FaceObservation) (db : DB) (e : String)
    (h : insert_faces repo pid faces db = .error e) : e = "StripPrefixError" := by
  induction faces generalizing db with
  | nil => unfold insert_faces at h; exact absurd h (by simp)
  | cons f rest ih =>
    rw [insert_faces] at h
    cases hf : insert_face repo pid f db with
    | ok db1 =>
      rw [hf] at h
      exact ih db1 h
    | error e1 =>
      rw [hf] at h
      cases h
      unfold insert_face at hf
      cases ht : stripBase repo.cache_dir_base_path f.thumbnail_path with
      | none => rw [ht] at hf; cases hf; rfl
      | some t =>
        cases hb : stripBase repo.cache_dir_base_path f.bounds_path with
        | none => rw [ht, hb] at hf; cases hf; rfl
        | some b => rw [ht, hb] at hf; exact absurd hf (by simp)

/-- On success `add_face_scans` leaves the scan table as the upsert wrote it. -/
theorem add_face_scans_ok_scans (repo : Repository) (now pid : Int)
    (faces : List FaceObservation) (db : DB)
    (h : (add_face_scans repo now pid faces db).1 = .ok ()) :
    (add_face_scans repo now pid faces db).2.pictures_face_scans =
      upsert_face_scan pid false faces.length now db.pictures_face_scans := by
  unfold add_face_scans at h ⊢
  cases hins : insert_faces repo pid faces
      { db with pictures_face_scans :=
          upsert_face_scan pid false faces.length now db.pictures_face_scans } with
  | ok db2 =>
    exact (insert_faces_shape _ _ _ _ _ hins).2.1
  | error e =>
    rw [hins] at h
    exact absurd h (by simp)

/-- Claim C10: `Repository::open` validates only the library root: it fails exactly
when `library_base_path` is not a directory and succeeds for every
`cache_dir_base_path`, which is never checked. -/
theorem openRepo_checks_only_library_root (is_dir : Path → Bool)
    (lib cache : Path) :
    (is_dir lib = true →
      Repository.openRepo is_dir lib cache =
        .ok { library_base_path := lib, cache_dir_base_path := cache }) ∧
    (is_dir lib = false →
      Repository.openRepo is_dir lib cache = .error "not a directory") := by
  constructor <;> intro h <;> simp [Repository.openRepo, h]

/-- Witness for C10: opening with an existing library root succeeds although
the cache root is not a directory of the modelled filesystem. -/
theorem openRepo_checks_only_library_root_witness :
    Repository.openRepo (fun p => decide (p = ["lib"])) ["lib"] ["nodir"] =
      .ok { library_base_path := ["lib"], cache_dir_base_path := ["nodir"] } ∧
    (fun p => decide (p = ["lib"])) ["nodir"] = false :=
  ⟨(openRepo_checks_only_library_root (fun p => decide (p = ["lib"]))
      ["lib"] ["nodir"]).1 (by decide), by decide⟩

/-- Claim C5: `add_face_scans` succeeds exactly when every observation's thumbnail
and bounds-visualization paths are under the cache root, and any failure is a
path error. -/
theorem add_face_scans_path_error_iff (repo : Repository) (now pid : Int)
    (faces : List FaceObservation) (db : DB) :
    ((add_face_scans repo now pid faces db).1 = .ok () ↔
      ∀ f ∈ faces,
        (stripBase repo.cache_dir_base_path f.thumbnail_path).isSome = true ∧
        (stripBase repo.cache_dir_base_path f.bounds_path).isSome = true) ∧
    ((add_face_scans repo now pid faces db).1 = .ok () ∨
      (add_face_scans repo now pid faces db).1 = .error "StripPrefixError") := by
  constructor
  · rw [add_face_scans_fst repo now pid faces db]
    constructor
    · intro hall f hf
      have := hall f hf
      unfold stripsOk at this
      exact ⟨(Bool.and_eq_true _ _ |>.mp this).1, (Bool.and_eq_true _ _ |>.mp this).2⟩
    · intro hall f hf
      unfold stripsOk
      exact Bool.and_eq_true _ _ |>.mpr ⟨(hall f hf).1, (hall f hf).2⟩
  · unfold add_face_scans
    cases hins : insert_faces repo pid faces
        { db with pictures_face_scans :=
            upsert_face_scan pid false faces.length now db.pictures_face_scans } with
    | ok db2 => exact Or.inl rfl
    | error e =>
      right
      rw [insert_faces_error _ _ _ _ _ hins]

/-- Witness for C5: a batch whose only observation lies under the cache root
is accepted. -/
theorem add_face_scans_path_error_iff_witness :
    (add_face_scans exRepo 7 1 [exObs] exDB).1 = .ok () :=
  ((add_face_scans_path_error_iff exRepo 7 1 [exObs] exDB).1).mpr (by decide)

/-- Claim C1: `add_face_scans` is atomic: when some observation's path fails to
rebase against the cache root the call fails and the database — its scan
table and its face table included — is exactly the pre-call database. -/
theorem add_face_scans_atomic (repo : Repository) (now pid : Int)
    (faces : List FaceObservation) (db : DB)
    (h : ∃ f ∈ faces,
      stripBase repo.cache_dir_base_path f.thumbnail_path = none ∨
      stripBase repo.cache_dir_base_path f.bounds_path = none) :
    (∃ e, (add_face_scans repo now pid faces db).1 = .error e) ∧
    (add_face_scans repo now pid faces db).2 = db := by
  obtain ⟨f, hf, hbad⟩ := h
  have hnot : ¬ ∀ g ∈ faces, stripsOk repo g = true := by
    intro hall
    have := hall f hf
    unfold stripsOk at this
    rcases hbad with hb | hb <;> rw [hb] at this <;> simp at this
  unfold add_face_scans
  cases hins : insert_faces repo pid faces
      { db with pictures_face_scans :=
          upsert_face_scan pid false faces.length now db.pictures_face_scans } with
  | ok db2 => exact absurd ((insert_faces_ok_iff _ _ _ _).mp ⟨db2, hins⟩) hnot
  | error e => exact ⟨⟨e, rfl⟩, rfl⟩

/-- Witness for C1: a batch holding a well-placed and a misplaced observation
is rejected whole, leaving the scanned database untouched. -/
theorem add_face_scans_atomic_witness :
    (∃ e, (add_face_scans exRepo 7 1 [exObs, badObs] exDB2).1 = .error e) ∧
    (add_face_scans exRepo 7 1 [exObs, badObs] exDB2).2 = exDB2 :=
  add_face_scans_atomic exRepo 7 1 [exObs, badObs] exDB2 (by decide)

/-- Claim C6: `mark_not_a_face` succeeds, flips `is_face` to false on the matching
row while leaving its other fields alone, leaves every other face row, the
scan table (`face_count` included) and the other tables unchanged, and is a
successful no-op when no row matches. -/
theorem mark_not_a_face_spec (fid : Int) (db : DB) :
    (mark_not_a_face fid db).1 = .ok () ∧
    (mark_not_a_face fid db).2.pictures = db.pictures ∧
    (mark_not_a_face fid db).2.pictures_face_scans = db.pictures_face_scans ∧
    (mark_not_a_face fid db).2.people = db.people ∧
    (mark_not_a_face fid db).2.pictures_faces.length = db.pictures_faces.length ∧
    (∀ f ∈ db.pictures_faces,
      (f.face_id ≠ fid → f ∈ (mark_not_a_face fid db).2.pictures_faces) ∧
      (f.face_id = fid →
        { f with is_face := false } ∈ (mark_not_a_face fid db).2.pictures_faces)) ∧
    (∀ g ∈ (mark_not_a_face fid db).2.pictures_faces,
      ∃ f ∈ db.pictures_faces,
        (f.face_id ≠ fid ∧ g = f) ∨
        (f.face_id = fid ∧ g = { f with is_face := false })) ∧
    ((∀ f ∈ db.pictures_faces, f.face_id ≠ fid) →
      (mark_not_a_face fid db).2 = db) := by
  unfold mark_not_a_face
  refine ⟨rfl, rfl, rfl, rfl, List.length_map _ _, ?_, ?_, ?_⟩
  · intro f hf
    constructor
    · intro hne
      exact List.mem_map.mpr ⟨f, hf, by simp [hne]⟩
    · intro heq
      exact List.mem_map.mpr ⟨f, hf, by simp [heq]⟩
  · intro g hg
    rcases List.mem_map.mp hg with ⟨f, hf, heq⟩
    by_cases hid : f.face_id = fid
    · exact ⟨f, hf, Or.inr ⟨hid, by rw [← heq]; simp [hid]⟩⟩
    · exact ⟨f, hf, Or.inl ⟨hid, by rw [← heq]; simp [hid]⟩⟩
  · intro hnone
    have hmap : db.pictures_faces.map
        (fun f => if f.face_id == fid then { f with is_face := false } else f) =
        db.pictures_faces := by
      rw [List.map_congr_left (fun f hf => if_neg (by simpa using hnone f hf))]
      exact List.map_id _
    rw [hmap]

/-- Witness for C6: marking a non-existent face id is a successful no-op on a
database holding one face. -/
theorem mark_not_a_face_spec_witness :
    (mark_not_a_face 99 exDB2).1 = .ok () ∧ (mark_not_a_face 99 exDB2).2 = exDB2 :=
  ⟨(mark_not_a_face_spec 99 exDB2).1,
   (mark_not_a_face_spec 99 exDB2).2.2.2.2.2.2.2 (by decide)⟩

/-- Claim C3: the at-most-one-scan-row-per-picture invariant is preserved by every
write operation, and running `add_face_scans` twice for the same picture and
observations succeeds and leaves exactly one scan row for it, carrying the
second call's `scan_ts`. -/
theorem face_scan_unique_invariant (repo : Repository)
    (now now1 now2 pid fid : Int) (faces : List FaceObservation) (db : DB)
    (h : scanUnique db) :
    scanUnique (add_face_scans repo now pid faces db).2 ∧
    scanUnique (mark_face_scan_broken now pid db).2 ∧
    scanUnique (mark_not_a_face fid db).2 ∧
    ((add_face_scans repo now1 pid faces db).1 = .ok () →
      (add_face_scans repo now2 pid faces
          (add_face_scans repo now1 pid faces db).2).1 = .ok () ∧
      ((add_face_scans repo now2 pid faces
          (add_face_scans repo now1 pid faces db).2).2.pictures_face_scans.filter
            (fun s => s.picture_id == pid)) =
        [{ picture_id := pid, is_broken := false, face_count := faces.length,
           scan_ts := now2 }]) := by
  refine ⟨?_, ?_, ?_, ?_⟩
  · unfold add_face_scans
    cases hins : insert_faces repo pid faces
        { db with pictures_face_scans :=
            upsert_face_scan pid false faces.length now db.pictures_face_scans } with
    | ok db2 =>
      show db2.pictures_face_scans.Pairwise _
      rw [(insert_faces_shape _ _ _ _ _ hins).2.1]
      exact upsert_preserves_unique _ _ _ _ _ h
    | error e => exact h
  · exact upsert_preserves_unique _ _ _ _ _ h
  · exact h
  · intro hok1
    have hall : ∀ f ∈ faces, stripsOk repo f = true :=
      (add_face_scans_fst repo now1 pid faces db).mp hok1
    have hok2 : (add_face_scans repo now2 pid faces
        (add_face_scans repo now1 pid faces db).2).1 = .ok () :=
      (add_face_scans_fst repo now2 pid faces _).mpr hall
    have hscans1 := add_face_scans_ok_scans repo now1 pid faces db hok1
    have huniq1 : ((add_face_scans repo now1 pid faces db).2).pictures_face_scans.Pairwise
        (fun a b => a.picture_id ≠ b.picture_id) := by
      rw [hscans1]
      exact upsert_preserves_unique _ _ _ _ _ h
    have hscans2 := add_face_scans_ok_scans repo now2 pid faces
      (add_face_scans repo now1 pid faces db).2 hok2
    refine ⟨hok2, ?_⟩
    rw [hscans2]
    exact upsert_filter pid false faces.length now2 _ huniq1

/-- Witness for C3: on the empty database, rescanning picture 1 twice keeps
one scan row, carrying the second timestamp. -/
theorem face_scan_unique_invariant_witness :
    scanUnique (add_face_scans exRepo 7 1 [exObs] exDB).2 ∧
    (add_face_scans exRepo 20 1 [exObs]
        (add_face_scans exRepo 10 1 [exObs] exDB).2).2.pictures_face_scans.filter
        (fun s => s.picture_id == 1) =
      [{ picture_id := 1, is_broken := false, face_count := 1, scan_ts := 20 }] :=
  ⟨(face_scan_unique_invariant exRepo 7 10 20 1 0 [exObs] exDB List.Pairwise.nil).1,
   ((face_scan_unique_invariant exRepo 7 10 20 1 0 [exObs] exDB
      List.Pairwise.nil).2.2.2 (by rfl)).2⟩

/-- Claim C7: every face row written by a successful `add_face_scans` call stores
each of the five optional landmarks as the two projections of one optional
point of some observation of the batch — both coordinates present or both
absent, never one without the other. -/
theorem add_face_scans_landmark_pairs (repo : Repository) (now pid : Int)
    (faces : List FaceObservation) (db : DB)
    (h : (add_face_scans repo now pid faces db).1 = .ok ()) :
    ∀ row ∈ (add_face_scans repo now pid faces db).2.pictures_faces,
      row ∈ db.pictures_faces ∨
      (row.right_eye_x.isSome = row.right_eye_y.isSome ∧
       row.left_eye_x.isSome = row.left_eye_y.isSome ∧
       row.nose_x.isSome = row.nose_y.isSome ∧
       row.right_mouth_corner_x.isSome = row.right_mouth_corner_y.isSome ∧
       row.left_mouth_corner_x.isSome = row.left_mouth_corner_y.isSome ∧
       ∃ f ∈ faces,
         row.right_eye_x = f.right_eye.map Prod.fst ∧
         row.right_eye_y = f.right_eye.map Prod.snd ∧
         row.left_eye_x = f.left_eye.map Prod.fst ∧
         row.left_eye_y = f.left_eye.map Prod.snd ∧
         row.nose_x = f.nose.map Prod.fst ∧
         row.nose_y = f.nose.map Prod.snd ∧
         row.right_mouth_corner_x = f.right_mouth_corner.map Prod.fst ∧
         row.right_mouth_corner_y = f.right_mouth_corner.map Prod.snd ∧
         row.left_mouth_corner_x = f.left_mouth_corner.map Prod.fst ∧
         row.left_mouth_corner_y = f.left_mouth_corner.map Prod.snd) := by
  unfold add_face_scans at h ⊢
  cases hins : insert_faces repo pid faces
      { db with pictures_face_scans :=
          upsert_face_scan pid false faces.length now db.pictures_face_scans } with
  | error e =>
    rw [hins] at h
    exact absurd h (by simp)
  | ok db2 =>
    intro row hrow
    have hrows := (insert_faces_shape _ _ _ _ _ hins).2.2.2 row hrow
    rcases hrows with hin | ⟨f, hf, hm⟩
    · exact Or.inl hin
    · right
      obtain ⟨_, _, _, _, h1, h2, h3, h4, h5, h6, h7, h8, h9, h10⟩ := hm
      rw [h1, h2, h3, h4, h5, h6, h7, h8, h9, h10]
      refine ⟨?_, ?_, ?_, ?_, ?_, f, hf, rfl, rfl, rfl, rfl, rfl, rfl, rfl, rfl, rfl, rfl⟩
      · cases f.right_eye <;> rfl
      · cases f.left_eye <;> rfl
      · cases f.nose <;> rfl
      · cases f.right_mouth_corner <;> rfl
      · cases f.left_mouth_corner <;> rfl

/-- Witness for C7: the landmark-pair property at the concrete row stored by
a successful call on one observation with mixed present and absent
landmarks. -/
theorem add_face_scans_landmark_pairs_witness :
    (mkFaceRow 1 1 ["faces", "t1.png"] ["faces", "b1.png"] exObs).right_eye_x.isSome =
      (mkFaceRow 1 1 ["faces", "t1.png"] ["faces", "b1.png"] exObs).right_eye_y.isSome ∧
    (mkFaceRow 1 1 ["faces", "t1.png"] ["faces", "b1.png"] exObs).left_eye_x.isSome =
      (mkFaceRow 1 1 ["faces", "t1.png"] ["faces", "b1.png"] exObs).left_eye_y.isSome :=
  have h := Or.resolve_left
    (add_face_scans_landmark_pairs exRepo 7 1 [exObs] exDB (by rfl)
      (mkFaceRow 1 1 ["faces", "t1.png"] ["faces", "b1.png"] exObs) (by decide))
    (by decide)
  ⟨h.1, h.2.1⟩

/-- When every row of a list maps successfully, flattening the iterator of
results is just mapping the success function. -/
theorem filterMap_toOption_eq_map {α β : Type} (g : α → Except String β)
    (s : α → β) (L : List α) (h : ∀ x ∈ L, g x = .ok (s x)) :
    (L.map g).filterMap Except.toOption = L.map s := by
  induction L with
  | nil => rfl
  | cons a L ih =>
    simp only [List.map_cons, List.filterMap_cons, h a (List.mem_cons_self a L),
      Except.toOption]
    rw [ih (fun x hx => h x (List.mem_cons_of_mem _ hx))]

/-- Row mapping of a face row with a non-null thumbnail column: success, with
the `Person` built exactly when the joined person row exists and carries a
name and a thumbnail path. -/
theorem to_face_and_person_some (repo : Repository) (db : DB) (f : FaceRow)
    (t : String) (ht : f.thumbnail_path = some t) :
    to_face_and_person repo db f = .ok
      ({ face_id := f.face_id,
         thumbnail_path := joinText repo.cache_dir_base_path t },
       match lookup_person db f.person_id with
       | none => none
       | some pr =>
         match pr.name, pr.thumbnail_path with
         | some n, some pt =>
           some { person_id := pr.person_id, name := n,
                  thumbnail_path := joinText repo.cache_dir_base_path pt }
         | _, _ => none) := by
  unfold to_face_and_person
  rw [ht]
  cases hj : lookup_person db f.person_id with
  | none => rfl
  | some pr =>
    cases hn : pr.name with
    | none => cases hp : pr.thumbnail_path <;> simp [hn, hp]
    | some n => cases hp : pr.thumbnail_path <;> simp [hn, hp]

/-- A qualifying face row whose mapping succeeds contributes its tuple to the
result of `find_faces`. -/
theorem find_faces_mem (repo : Repository) (db : DB) (pid : Int) (f : FaceRow)
    (x : Face × Option Person) (hf : f ∈ db.pictures_faces)
    (hq : (f.picture_id == pid && f.is_face) = true)
    (hx : to_face_and_person repo db f = .ok x) :
    ∃ l, find_faces repo db pid = .ok l ∧ x ∈ l := by
  refine ⟨_, rfl, ?_⟩
  apply List.mem_filterMap.mpr
  refine ⟨to_face_and_person repo db f, ?_, by rw [hx]; rfl⟩
  exact List.mem_map_of_mem _ (List.mem_filter.mpr ⟨hf, hq⟩)

/-- Claim C4: under non-null thumbnail columns for the picture's valid faces,
`find_faces` returns exactly what the spec describes: one tuple per face row
with `is_face = true`, thumbnails joined to the cache root, and a `Person`
only when the joined person row has its id, name and thumbnail
simultaneously non-null. -/
theorem find_faces_matches_spec (repo : Repository) (db : DB) (pid : Int)
    (h : ∀ f ∈ db.pictures_faces, (f.picture_id == pid && f.is_face) = true →
      f.thumbnail_path.isSome = true) :
    find_faces repo db pid = .ok (find_faces_spec repo db pid) := by
  unfold find_faces find_faces_spec
  congr 1
  apply filterMap_toOption_eq_map
  intro f hf
  have hq := List.mem_filter.mp hf
  have hts : f.thumbnail_path.isSome = true := h f hq.1 hq.2
  obtain ⟨t, ht⟩ := Option.isSome_iff_exists.mp hts
  rw [to_face_and_person_some repo db f t ht, ht]
  rfl

/-- Witness for C4: a database with one linked and one unlinked person row. -/
theorem find_faces_matches_spec_witness :
    find_faces exRepo exDB2 1 = .ok (find_faces_spec exRepo exDB2 1) :=
  find_faces_matches_spec exRepo exDB2 1 (by decide)

/-- Claim C2: `find_need_face_scan` returns, when the stored paths of the pictures
needing a scan decode, exactly the pictures with no scan row and a false or
absent `is_broken` flag, ordered descending by the coalesced timestamp
defaulting to now, each path being the library root joined with the decoded
relative path. -/
theorem find_need_face_scan_spec_correct (repo : Repository) (now : Int)
    (db : DB)
    (hdec : ∀ p ∈ db.pictures, needsScan db p = true →
      (from_base64 p.picture_path_b64).isSome = true) :
    ∃ ps : List PictureRow,
      (∀ p : PictureRow, p ∈ ps ↔ p ∈ db.pictures ∧ needsScan db p = true) ∧
      ps.Pairwise (fun a b => orderingTs now b ≤ orderingTs now a) ∧
      find_need_face_scan repo now db = .ok (ps.map (fun p =>
        (p.picture_id,
         repo.library_base_path ++ (from_base64 p.picture_path_b64).getD []))) := by
  refine ⟨(db.pictures.filter (needsScan db)).mergeSort
      (fun a b => decide (orderingTs now b ≤ orderingTs now a)), ?_, ?_, ?_⟩
  · intro p
    rw [List.mem_mergeSort, List.mem_filter]
  · refine List.Pairwise.imp ?_ (List.sorted_mergeSort ?_ ?_ _)
    · intro a b hab
      exact of_decide_eq_true hab
    · intro a b c hab hbc
      exact decide_eq_true (le_trans (of_decide_eq_true hbc) (of_decide_eq_true hab))
    · intro a b
      rcases le_total (orderingTs now a) (orderingTs now b) with hle | hle <;>
        simp [hle]
  · unfold find_need_face_scan
    congr 1
    apply filterMap_toOption_eq_map
    intro p hp
    have hmem : p ∈ db.pictures.filter (needsScan db) := List.mem_mergeSort.mp hp
    have hneed := List.mem_filter.mp hmem
    have hsome := hdec p hneed.1 hneed.2
    obtain ⟨rel, hrel⟩ := Option.isSome_iff_exists.mp hsome
    unfold to_picture_id_path_tuple
    rw [hrel]
    rfl

/-- Witness for C2: two unscanned pictures come back newest first, with
decoded library paths. -/
theorem find_need_face_scan_spec_correct_witness :
    ∃ ps : List PictureRow,
      (∀ p : PictureRow, p ∈ ps ↔ p ∈ exDB3.pictures ∧ needsScan exDB3 p = true) ∧
      ps.Pairwise (fun a b => orderingTs 100 b ≤ orderingTs 100 a) ∧
      find_need_face_scan exRepo 100 exDB3 = .ok (ps.map (fun p =>
        (p.picture_id,
         exRepo.library_base_path ++ (from_base64 p.picture_path_b64).getD []))) :=
  find_need_face_scan_spec_correct exRepo 100 exDB3 (by decide)

/-- Counterexample for C9: a face row whose row mapping fails (NULL thumbnail
column) is silently dropped by `find_faces`, which still succeeds — the
row-mapping error does not propagate to the caller. -/
theorem find_faces_row_error_dropped_cex :
    to_face_and_person exRepo badDB badFaceRow = .error "InvalidColumnType" ∧
    (badFaceRow.picture_id == (1 : Int) && badFaceRow.is_face) = true ∧
    find_faces exRepo badDB 1 = .ok [] :=
  ⟨rfl, by decide, rfl⟩

/-- Claim C9 (amended): decode and row-mapping errors are handled uniformly
best-effort: both `find_need_face_scan` and `find_faces` always succeed, and
every returned element arises from a row whose mapping succeeded — rows whose
mapping fails are silently dropped from either result. -/
theorem decode_errors_best_effort (repo : Repository) (now pid : Int)
    (db : DB) :
    (∃ l, find_need_face_scan repo now db = .ok l ∧
      ∀ e ∈ l, ∃ p, p ∈ db.pictures ∧ needsScan db p = true ∧
        to_picture_id_path_tuple repo p = .ok e) ∧
    (∃ l, find_faces repo db pid = .ok l ∧
      ∀ e ∈ l, ∃ f, f ∈ db.pictures_faces ∧
        (f.picture_id == pid && f.is_face) = true ∧
        to_face_and_person repo db f = .ok e) := by
  constructor
  · refine ⟨_, rfl, ?_⟩
    intro e he
    rcases List.mem_filterMap.mp he with ⟨r, hr, hre⟩
    rcases List.mem_map.mp hr with ⟨p, hp, rfl⟩
    have hmem := List.mem_filter.mp (List.mem_mergeSort.mp hp)
    refine ⟨p, hmem.1, hmem.2, ?_⟩
    cases hv : to_picture_id_path_tuple repo p with
    | ok v => rw [hv] at hre; cases hre; rfl
    | error e1 => rw [hv] at hre; exact absurd hre (by simp [Except.toOption])
  · refine ⟨_, rfl, ?_⟩
    intro e he
    rcases List.mem_filterMap.mp he with ⟨r, hr, hre⟩
    rcases List.mem_map.mp hr with ⟨f, hf, rfl⟩
    have hmem := List.mem_filter.mp hf
    refine ⟨f, hmem.1, hmem.2, ?_⟩
    cases hv : to_face_and_person repo db f with
    | ok v => rw [hv] at hre; cases hre; rfl
    | error e1 => rw [hv] at hre; exact absurd hre (by simp [Except.toOption])

/-- Witness for C9 (amended): the best-effort behaviour on the database whose
single face row fails to map. -/
theorem decode_errors_best_effort_witness :
    (∃ l, find_need_face_scan exRepo 100 badDB = .ok l ∧
      ∀ e ∈ l, ∃ p, p ∈ badDB.pictures ∧ needsScan badDB p = true ∧
        to_picture_id_path_tuple exRepo p = .ok e) ∧
    (∃ l, find_faces exRepo badDB 1 = .ok l ∧
      ∀ e ∈ l, ∃ f, f ∈ badDB.pictures_faces ∧
        (f.picture_id == (1 : Int) && f.is_face) = true ∧
        to_face_and_person exRepo badDB f = .ok e) :=
  decode_errors_best_effort exRepo 100 1 badDB

/-- Claim C8: path translation round-trips end to end: an absolute thumbnail path
under the cache root with an arbitrary slash-free nonempty component suffix,
stored by `add_face_scans` as cache-relative text, is read back by
`find_faces` as the original absolute path. -/
theorem path_round_trip (repo : Repository) (now pid : Int) (db : DB)
    (obs : FaceObservation) (suffix bsuffix : Path)
    (hth : obs.thumbnail_path = repo.cache_dir_base_path ++ suffix)
    (hbp : obs.bounds_path = repo.cache_dir_base_path ++ bsuffix)
    (h1 : suffix ≠ []) (h2 : ∀ c ∈ suffix, '/' ∉ c.toList) :
    (add_face_scans repo now pid [obs] db).1 = .ok () ∧
    ∃ l, find_faces repo (add_face_scans repo now pid [obs] db).2 pid = .ok l ∧
      ∃ x ∈ l, x.1.face_id = db.next_face_id ∧
        x.1.thumbnail_path = obs.thumbnail_path := by
  have hst : stripBase repo.cache_dir_base_path obs.thumbnail_path = some suffix := by
    rw [hth]; exact stripBase_append _ _
  have hsb : stripBase repo.cache_dir_base_path obs.bounds_path = some bsuffix := by
    rw [hbp]; exact stripBase_append _ _
  have hadd : add_face_scans repo now pid [obs] db = (.ok (), { db with
      pictures_face_scans :=
        upsert_face_scan pid false 1 now db.pictures_face_scans,
      pictures_faces := db.pictures_faces ++
        [mkFaceRow pid db.next_face_id suffix bsuffix obs],
      next_face_id := db.next_face_id + 1 }) := by
    unfold add_face_scans insert_faces insert_face
    rw [hst, hsb]
    rfl
  rw [hadd]
  refine ⟨rfl, ?_⟩
  have hrow : mkFaceRow pid db.next_face_id suffix bsuffix obs ∈
      (db.pictures_faces ++ [mkFaceRow pid db.next_face_id suffix bsuffix obs]) :=
    List.mem_append_right _ (List.mem_singleton.mpr rfl)
  have hq : ((mkFaceRow pid db.next_face_id suffix bsuffix obs).picture_id == pid &&
      (mkFaceRow pid db.next_face_id suffix bsuffix obs).is_face) = true := by
    simp [mkFaceRow]
  have hx := to_face_and_person_some repo
    { db with
      pictures_face_scans :=
        upsert_face_scan pid false 1 now db.pictures_face_scans,
      pictures_faces := db.pictures_faces ++
        [mkFaceRow pid db.next_face_id suffix bsuffix obs],
      next_face_id := db.next_face_id + 1 }
    (mkFaceRow pid db.next_face_id suffix bsuffix obs) (pathToText suffix) rfl
  obtain ⟨l, hl, hxl⟩ := find_faces_mem repo _ pid _ _ hrow hq hx
  refine ⟨l, hl, _, hxl, rfl, ?_⟩
  show joinText repo.cache_dir_base_path (pathToText suffix) = obs.thumbnail_path
  unfold joinText
  rw [textToPath_pathToText suffix h1 h2, hth]

/-- Witness for C8: round trip of a nested cache path through a concrete
store-and-read. -/
theorem path_round_trip_witness :
    (add_face_scans exRepo 7 1 [exObs] exDB).1 = .ok () ∧
    ∃ l, find_faces exRepo (add_face_scans exRepo 7 1 [exObs] exDB).2 1 = .ok l ∧
      ∃ x ∈ l, x.1.face_id = exDB.next_face_id ∧
        x.1.thumbnail_path = exObs.thumbnail_path :=
  path_round_trip exRepo 7 1 exDB exObs ["faces", "t1.png"] ["faces", "b1.png"]
    (by decide) (by decide) (by decide) (by decide)

end Fotema
